import Mathlib

/- Verification of the lineup-optimization and fatigue engine of the
sports-analytics coach dashboard (src/optimization_model.py and src/app.py).

Modelling conventions.  Python floats are embedded as exact rationals: the
constants 0.02, 0.01, 0.3, 0.7, 1e-6 and 8.0 become 2/100, 1/100, 3/10,
7/10, 1/1000000 and 8.  Python dicts become association lists
(`List (String × _)`) with `dict.get(key, default)` semantics; the pandas
DataFrame `team_df` becomes a `List Player` of the three columns the
optimizer reads.  Gurobi, an external exact ILP solver, is modelled by its
contract: it returns an optimal feasible solution of the binary program
posed in `_optimize_with_gurobi` (or reports infeasibility), realized here
by exhaustive enumeration of candidate subsets. -/

/-- One row of `team_df` as the optimizer reads it: `player_id`,
`disability_score`, `value_score` (src/app.py builds these columns). -/
structure Player where
  player_id : String
  disability_score : ℚ
  value_score : ℚ
  deriving DecidableEq, Repr

/-- One entry of the result's `breakdown` list
(src/optimization_model.py lines 170-181). -/
structure BreakdownEntry where
  player_id : String
  value_score : ℚ
  t_j : ℚ
  alpha : ℚ
  adjusted_score : ℚ
  disability_score : ℚ
  is_pre_selected : Bool
  deriving DecidableEq, Repr

/-- The result dict of `optimize_lineup`.  The infeasible result dicts in the
source omit the `strategy_weight_alpha` key, hence the `Option`. -/
structure OptimizationResult where
  lineup : List String
  objective : ℚ
  disability_sum : ℚ
  strategy_weight_alpha : Option ℚ
  breakdown : List BreakdownEntry
  deriving DecidableEq, Repr

/-- The canonical infeasible result: empty lineup, objective 0.0, empty
breakdown (src/optimization_model.py lines 63-68, 94-99 and 192-197). -/
def emptyResult : OptimizationResult :=
  { lineup := [], objective := 0, disability_sum := 0,
    strategy_weight_alpha := none, breakdown := [] }

/-- Python `dict.get(k, default)` for a rational-valued association list. -/
def getD_rat (m : List (String × ℚ)) (k : String) (d : ℚ) : ℚ :=
  match m with
  | [] => d
  | p :: rest => if p.1 = k then p.2 else getD_rat rest k d

/-- Python `dict.get(k, default)` for a boolean-valued association list. -/
def getD_bool (m : List (String × Bool)) (k : String) (d : Bool) : Bool :=
  match m with
  | [] => d
  | p :: rest => if p.1 = k then p.2 else getD_bool rest k d

/-- LineupOptimizer.calculate_strategy_weight
(src/optimization_model.py lines 8-15). -/
def calculate_strategy_weight (home_score away_score : ℚ) : ℚ :=
  let diff := home_score - away_score
  if diff < -2 then 0
  else if -2 ≤ diff ∧ diff ≤ 2 then 1
  else 2

/-- LineupOptimizer.update_fatigue_multiplier
(src/optimization_model.py lines 17-25): on-court decay 0.02/min, bench
recovery 0.01/min, then clamp to [0.3, 1.0]. -/
def update_fatigue_multiplier (t_j : ℚ) (stint_duration_minutes : ℚ)
    (on_court : Bool) : ℚ :=
  let t_new := if on_court then t_j - (2/100) * stint_duration_minutes
               else t_j + (1/100) * stint_duration_minutes
  max (3/10) (min 1 t_new)

/-- Fatigue-level (0-100) to energy-fraction conversion,
`(fatigue_level / 100.0) * 0.7 + 0.3`
(src/optimization_model.py line 53 and src/app.py line 213). -/
def tOfLevel (fatigue_level : ℚ) : ℚ := (fatigue_level / 100) * (7/10) + 3/10

/-- Energy-fraction to fatigue-level conversion, `((t - 0.3) / 0.7) * 100`
(src/app.py line 226). -/
def levelOfT (t : ℚ) : ℚ := ((t - 3/10) / (7/10)) * 100

/-- The per-player body of the loop in `update_fatigue_after_stint`
(src/app.py lines 210-228): convert the 0-100 level to an energy fraction,
apply the on-court/bench rate for the stint duration in minutes, clamp to
[0.3, 1.0], convert back and clamp the level to [0, 100]. -/
def update_fatigue_one (stint_duration_minutes : ℚ) (on_court : Bool)
    (fatigue_level : ℚ) : ℚ :=
  let t_old := tOfLevel fatigue_level
  let t_new := if on_court then t_old - (2/100) * stint_duration_minutes
               else t_old + (1/100) * stint_duration_minutes
  let t_clamped := max (3/10) (min 1 t_new)
  max 0 (min 100 (levelOfT t_clamped))

/-- update_fatigue_after_stint (src/app.py lines 187-230): the stint duration
arrives in seconds and is divided by 60; every player of the fatigue dict is
updated, on-court status decided by membership in `lineup`. -/
def update_fatigue_after_stint (stint_duration_seconds : ℚ)
    (lineup : List String) (fatigue : List (String × ℚ)) :
    List (String × ℚ) :=
  let stint_duration_minutes := stint_duration_seconds / 60
  fatigue.map (fun p =>
    (p.1, update_fatigue_one stint_duration_minutes (decide (p.1 ∈ lineup)) p.2))

/-- Exponentiation `t ** alpha` as the program exercises it.  The strategy
weights the program produces are exactly the integers 0, 1 and 2 (see
`calculate_strategy_weight` and `strategy_weight_cases` below), so real
exponentiation coincides with the natural power of the numerator of the
weight; the positive-weight branches are only reached for weights 1 and 2. -/
def powW (t : ℚ) (alpha : ℚ) : ℚ := t ^ alpha.num.toNat

/-- The inner `_adj` of `optimize_lineup`
(src/optimization_model.py lines 80-85): clamp t to [0.3, 1.0]; for a
non-negative base score multiply by `t ** alpha`, for a negative one by
`(1 / max t 1e-6) ** alpha`. -/
def _adj (alpha beta tj : ℚ) : ℚ :=
  let tc := max (3/10) (min 1 tj)
  if 0 ≤ beta then beta * powW tc alpha
  else beta * powW (1 / max tc (1/1000000)) alpha

/-- The `score_adjusted` column (src/optimization_model.py lines 76-88):
base value score unchanged when `alpha ≤ 0`, otherwise `_adj`. -/
def scoreAdjusted (alpha beta tj : ℚ) : ℚ :=
  if alpha ≤ 0 then beta else _adj alpha beta tj

/-- The `t_j` used for a player: `t_j_dict` is built from `fatigue_levels` by
the clamped conversion (src/optimization_model.py lines 50-54) and read with
default 1.0 (lines 70-73). -/
def tjOf (fatigue_levels : List (String × ℚ)) (pid : String) : ℚ :=
  getD_rat (fatigue_levels.map (fun p => (p.1, max (3/10) (min 1 (tOfLevel p.2)))))
    pid 1

/-- `available_df` (src/optimization_model.py lines 57-59): rows whose
`player_id` maps to an availability of `True`, defaulting to `True`. -/
def availableDf (team_df : List Player) (availability : List (String × Bool)) :
    List Player :=
  team_df.filter (fun p => getD_bool availability p.player_id true)

/-- A row of `available_df` after the `t_j` and `score_adjusted` columns are
added (src/optimization_model.py lines 70-88). -/
structure Row where
  pid : String
  value_score : ℚ
  disability_score : ℚ
  t_j : ℚ
  score_adjusted : ℚ
  deriving DecidableEq, Repr

/-- Builds the enriched row of one available player. -/
def mkRow (alpha : ℚ) (fatigue_levels : List (String × ℚ)) (p : Player) : Row :=
  let tj := tjOf fatigue_levels p.player_id
  { pid := p.player_id, value_score := p.value_score,
    disability_score := p.disability_score, t_j := tj,
    score_adjusted := scoreAdjusted alpha p.value_score tj }

/-- The enriched `available_df` handed to the solver. -/
def availableRows (team_df : List Player) (availability : List (String × Bool))
    (fatigue_levels : List (String × ℚ)) (alpha : ℚ) : List Row :=
  (availableDf team_df availability).map (mkRow alpha fatigue_levels)

/-- Sum of the `score_adjusted` column over a subset: the ILP objective. -/
def adjSum (s : List Row) : ℚ := (s.map Row.score_adjusted).sum

/-- Sum of the `disability_score` column over a subset. -/
def disSum (s : List Row) : ℚ := (s.map Row.disability_score).sum

/-- The constraints of the binary program of `_optimize_with_gurobi`
(src/optimization_model.py lines 138-155): exactly `lineup_size` players,
disability sum at most the cap, every pre-selected player included. -/
def isFeasible (forced : List String) (cap : ℚ) (size : Nat) (s : List Row) :
    Bool :=
  decide (s.length = size) && decide (disSum s ≤ cap) &&
    forced.all (fun f => decide (f ∈ s.map Row.pid))

/-- All candidate subsets satisfying the program's constraints. -/
def feasibleSubsets (rows : List Row) (forced : List String) (cap : ℚ)
    (size : Nat) : List (List Row) :=
  rows.sublists.filter (isFeasible forced cap size)

/-- One comparison step of the argmax scan over feasible subsets. -/
def pickStep (b s : List Row) : List Row := if adjSum b < adjSum s then s else b

/-- Deterministic argmax over the feasible subsets: keeps the first subset of
maximal objective.  This realizes the solver's guarantee (an optimal feasible
solution); which optimum is kept at ties is one valid solver behavior. -/
def pickBest : List (List Row) → Option (List Row)
  | [] => none
  | c :: cs => some (cs.foldl pickStep c)

/-- LineupOptimizer._optimize_with_gurobi
(src/optimization_model.py lines 111-197).  The Gurobi model maximizes the
sum of `score_adjusted` over binary choices subject to `isFeasible`; an
optimal solution yields the result dict of lines 184-190, an infeasible
model (status neither OPTIMAL nor SUBOPTIMAL) the empty result of lines
192-197.  The external solver is modelled by its contract, realized by
`pickBest` over the enumerated feasible subsets. -/
def _optimize_with_gurobi (rows : List Row) (pre_selected_available : List String)
    (disability_cap : ℚ) (lineup_size : Nat) (alpha : ℚ) : OptimizationResult :=
  match pickBest (feasibleSubsets rows pre_selected_available disability_cap
      lineup_size) with
  | none => emptyResult
  | some best =>
    { lineup := best.map Row.pid
      objective := adjSum best
      disability_sum := disSum best
      strategy_weight_alpha := some alpha
      breakdown := best.map (fun r =>
        { player_id := r.pid, value_score := r.value_score, t_j := r.t_j,
          alpha := alpha, adjusted_score := r.score_adjusted,
          disability_score := r.disability_score,
          is_pre_selected := decide (r.pid ∈ pre_selected_available) }) }

/-- LineupOptimizer.optimize_lineup (src/optimization_model.py lines 28-108):
compute the strategy weight, overwrite the caller's disability cap with 8.0
(line 47), keep the available rows, bail out with the empty result when fewer
than `lineup_size` players are available (lines 62-68) or some pre-selected
player is not among the available ones (lines 91-99), else solve. -/
def optimize_lineup (team_df : List Player) (availability : List (String × Bool))
    (fatigue_levels : List (String × ℚ)) (home_score away_score : ℚ)
    (pre_selected : List String) (disability_cap : ℚ) (lineup_size : Nat) :
    OptimizationResult :=
  let alpha := calculate_strategy_weight home_score away_score
  let disability_cap := (8 : ℚ)
  let available_df := availableDf team_df availability
  if available_df.length < lineup_size then emptyResult
  else
    let rows := availableRows team_df availability fatigue_levels alpha
    let pre_selected_available := pre_selected.filter
      (fun p => decide (p ∈ available_df.map Player.player_id))
    if pre_selected_available.length < pre_selected.length then emptyResult
    else _optimize_with_gurobi rows pre_selected_available disability_cap
      lineup_size alpha

/-- Concrete roster of the enumerable test scenario: five players with value
scores 3, -2, 5, 1, 0 and disability score 2 each. -/
def demoTeam : List Player :=
  [⟨"a", 2, 3⟩, ⟨"b", 2, -2⟩, ⟨"c", 2, 5⟩, ⟨"d", 2, 1⟩, ⟨"e", 2, 0⟩]

/-- Concrete roster with only three players. -/
def smallTeam : List Player := [⟨"a", 2, 3⟩, ⟨"b", 2, 2⟩, ⟨"c", 2, 1⟩]

/-- Concrete roster on which two distinct 4-subsets tie for the optimum:
d and e are interchangeable. -/
def tieTeam : List Player :=
  [⟨"a", 2, 5⟩, ⟨"b", 2, 4⟩, ⟨"c", 2, 3⟩, ⟨"d", 2, 1⟩, ⟨"e", 2, 1⟩]

/-- First optimal subset of `tieTeam` (players a, b, c, d). -/
def tieS1 : List Row :=
  [⟨"a", 5, 2, 1, 5⟩, ⟨"b", 4, 2, 1, 4⟩, ⟨"c", 3, 2, 1, 3⟩, ⟨"d", 1, 2, 1, 1⟩]

/-- Second optimal subset of `tieTeam` (players a, b, c, e). -/
def tieS2 : List Row :=
  [⟨"a", 5, 2, 1, 5⟩, ⟨"b", 4, 2, 1, 4⟩, ⟨"c", 3, 2, 1, 3⟩, ⟨"e", 1, 2, 1, 1⟩]

/-- A single concrete enriched row. -/
def rowOne : Row := ⟨"a", 3, 2, 1, 3⟩

/-- A subset an exact solver may return for the binary program posed by
`_optimize_with_gurobi`: feasible, and of maximal adjusted-score sum among
the feasible subsets.  Gurobi guarantees exactly this and nothing more;
which optimum is returned at ties is the solver's internal choice, and the
source imposes no tie-break of its own. -/
def IsOptimalChoice (rows : List Row) (forced : List String) (cap : ℚ)
    (size : Nat) (s : List Row) : Prop :=
  s ∈ feasibleSubsets rows forced cap size ∧
  ∀ u ∈ feasibleSubsets rows forced cap size, adjSum u ≤ adjSum s

/-- The strategy weight is always one of the integers 0, 1, 2. -/
theorem strategy_weight_cases (home_score away_score : ℚ) :
    calculate_strategy_weight home_score away_score = 0 ∨
    calculate_strategy_weight home_score away_score = 1 ∨
    calculate_strategy_weight home_score away_score = 2 := by
  simp only [calculate_strategy_weight]
  split_ifs <;> simp

/-- Natural-number strategy weights exponentiate by the natural power. -/
theorem powW_natCast (t : ℚ) (n : ℕ) : powW t (n : ℚ) = t ^ n := by
  unfold powW
  rw [Rat.num_natCast, Int.toNat_natCast]

/-- The clamp of the source is the identity on [0.3, 1.0]. -/
theorem clamp_eq_self (t : ℚ) (h1 : 3/10 ≤ t) (h2 : t ≤ 1) :
    max (3/10) (min 1 t) = t := by
  rw [min_eq_right h2, max_eq_right h1]

/-- The argmax scan never leaves the scanned list (plus its seed). -/
theorem foldl_pickStep_mem (cs : List (List Row)) (b : List Row) :
    cs.foldl pickStep b = b ∨ cs.foldl pickStep b ∈ cs := by
  induction cs generalizing b with
  | nil => exact Or.inl rfl
  | cons c cs ih =>
    simp only [List.foldl_cons]
    rcases ih (pickStep b c) with h | h
    · rw [h]
      unfold pickStep
      split_ifs
      · exact Or.inr (List.mem_cons_self c cs)
      · exact Or.inl rfl
    · exact Or.inr (List.mem_cons_of_mem c h)

/-- The argmax scan dominates its seed and every scanned subset. -/
theorem foldl_pickStep_le (cs : List (List Row)) (b : List Row) :
    adjSum b ≤ adjSum (cs.foldl pickStep b) ∧
    ∀ s ∈ cs, adjSum s ≤ adjSum (cs.foldl pickStep b) := by
  induction cs generalizing b with
  | nil => exact ⟨le_refl _, by simp⟩
  | cons c cs ih =>
    have hb : adjSum b ≤ adjSum (pickStep b c) := by
      unfold pickStep; split_ifs with h
      · exact le_of_lt h
      · exact le_refl _
    have hc : adjSum c ≤ adjSum (pickStep b c) := by
      unfold pickStep; split_ifs with h
      · exact le_refl _
      · exact le_of_not_lt h
    obtain ⟨h1, h2⟩ := ih (pickStep b c)
    simp only [List.foldl_cons]
    refine ⟨le_trans hb h1, ?_⟩
    intro s hs
    rcases List.mem_cons.mp hs with rfl | hs
    · exact le_trans hc h1
    · exact h2 s hs

/-- A picked subset belongs to the candidate list and has maximal objective. -/
theorem pickBest_spec (l : List (List Row)) (r : List Row)
    (h : pickBest l = some r) : r ∈ l ∧ ∀ s ∈ l, adjSum s ≤ adjSum r := by
  cases l with
  | nil => simp [pickBest] at h
  | cons c cs =>
    simp only [pickBest, Option.some.injEq] at h
    subst h
    constructor
    · rcases foldl_pickStep_mem cs c with h | h
      · rw [h]; exact List.mem_cons_self c cs
      · exact List.mem_cons_of_mem c h
    · intro s hs
      obtain ⟨h1, h2⟩ := foldl_pickStep_le cs c
      rcases List.mem_cons.mp hs with rfl | hs
      · exact h1
      · exact h2 s hs

/-- A filter that drops nothing (by length) is the identity. -/
theorem filter_all_of_length_eq {α : Type} (p : α → Bool) (l : List α)
    (h : (l.filter p).length = l.length) : l.filter p = l := by
  induction l with
  | nil => rfl
  | cons a l ih =>
    by_cases hp : p a = true
    · rw [List.filter_cons_of_pos hp] at h ⊢
      simp only [List.length_cons, Nat.succ.injEq] at h
      rw [ih h]
    · rw [List.filter_cons_of_neg (by simpa using hp)] at h
      have hle := List.length_filter_le p l
      simp only [List.length_cons] at h
      omega

/-- A filter that drops some member is strictly shorter. -/
theorem filter_length_lt_of_exists {α : Type} (p : α → Bool) (l : List α)
    (x : α) (hx : x ∈ l) (hpx : ¬ p x = true) :
    (l.filter p).length < l.length := by
  rcases Nat.lt_or_ge (l.filter p).length l.length with h | h
  · exact h
  · exfalso
    have heq := le_antisymm (List.length_filter_le p l) h
    have hfl := filter_all_of_length_eq p l heq
    have hx2 : x ∈ l.filter p := by rw [hfl]; exact hx
    exact hpx (List.mem_filter.mp hx2).2

/-- The ids of the enriched rows are the ids of the available players. -/
theorem availableRows_map_pid (team_df : List Player)
    (availability : List (String × Bool)) (fatigue_levels : List (String × ℚ))
    (alpha : ℚ) :
    (availableRows team_df availability fatigue_levels alpha).map Row.pid =
      (availableDf team_df availability).map Player.player_id := by
  simp only [availableRows, List.map_map]
  rfl

/-- Unfolding of the solver's feasibility check. -/
theorem isFeasible_iff (forced : List String) (cap : ℚ) (size : Nat)
    (s : List Row) : isFeasible forced cap size s = true ↔
      (s.length = size ∧ disSum s ≤ cap ∧ ∀ f ∈ forced, f ∈ s.map Row.pid) := by
  simp [isFeasible, List.all_eq_true, and_assoc]

/-- C1: whenever `optimize_lineup` returns a non-empty lineup, the lineup has
exactly `lineup_size` distinct player ids, all drawn from the available
candidate set, its disability sum is within the enforced cap 8, every
pre-selected id is included, and the returned objective is the maximum
achievable adjusted-score sum over all feasible subsets of that size
containing the pre-selected ids. -/
theorem C1_lineup_feasible_and_optimal
    (team_df : List Player) (availability : List (String × Bool))
    (fatigue_levels : List (String × ℚ)) (home_score away_score : ℚ)
    (pre_selected : List String) (disability_cap : ℚ) (lineup_size : Nat)
    (hnodup : ((availableDf team_df availability).map Player.player_id).Nodup)
    (hne : (optimize_lineup team_df availability fatigue_levels home_score
      away_score pre_selected disability_cap lineup_size).lineup ≠ []) :
    (optimize_lineup team_df availability fatigue_levels home_score away_score
        pre_selected disability_cap lineup_size).lineup.length = lineup_size ∧
    (optimize_lineup team_df availability fatigue_levels home_score away_score
        pre_selected disability_cap lineup_size).lineup.Nodup ∧
    (∀ p ∈ (optimize_lineup team_df availability fatigue_levels home_score
        away_score pre_selected disability_cap lineup_size).lineup,
      p ∈ (availableDf team_df availability).map Player.player_id) ∧
    (optimize_lineup team_df availability fatigue_levels home_score away_score
        pre_selected disability_cap lineup_size).disability_sum ≤ 8 ∧
    (∀ p ∈ pre_selected,
      p ∈ (optimize_lineup team_df availability fatigue_levels home_score
        away_score pre_selected disability_cap lineup_size).lineup) ∧
    (∃ s ∈ feasibleSubsets
        (availableRows team_df availability fatigue_levels
          (calculate_strategy_weight home_score away_score))
        pre_selected 8 lineup_size,
      (optimize_lineup team_df availability fatigue_levels home_score away_score
        pre_selected disability_cap lineup_size).lineup = s.map Row.pid ∧
      (optimize_lineup team_df availability fatigue_levels home_score away_score
        pre_selected disability_cap lineup_size).objective = adjSum s ∧
      (optimize_lineup team_df availability fatigue_levels home_score away_score
        pre_selected disability_cap lineup_size).disability_sum = disSum s) ∧
    (∀ s ∈ feasibleSubsets
        (availableRows team_df availability fatigue_levels
          (calculate_strategy_weight home_score away_score))
        pre_selected 8 lineup_size,
      adjSum s ≤ (optimize_lineup team_df availability fatigue_levels home_score
        away_score pre_selected disability_cap lineup_size).objective) := by
  simp only [optimize_lineup] at hne ⊢
  by_cases h1 : (availableDf team_df availability).length < lineup_size
  · rw [if_pos h1] at hne; simp [emptyResult] at hne
  rw [if_neg h1] at hne ⊢
  by_cases h2 : (pre_selected.filter (fun p => decide
      (p ∈ (availableDf team_df availability).map Player.player_id))).length <
      pre_selected.length
  · rw [if_pos h2] at hne; simp [emptyResult] at hne
  rw [if_neg h2] at hne ⊢
  have hpre : pre_selected.filter (fun p => decide
      (p ∈ (availableDf team_df availability).map Player.player_id)) =
      pre_selected :=
    filter_all_of_length_eq _ _
      (le_antisymm (List.length_filter_le _ _) (le_of_not_lt h2))
  rw [hpre] at hne ⊢
  cases hpb : pickBest (feasibleSubsets
      (availableRows team_df availability fatigue_levels
        (calculate_strategy_weight home_score away_score))
      pre_selected 8 lineup_size) with
  | none =>
    rw [_optimize_with_gurobi, hpb] at hne
    simp [emptyResult] at hne
  | some best =>
    obtain ⟨hmem, hmax⟩ := pickBest_spec _ _ hpb
    have hmem0 := hmem
    rw [feasibleSubsets, List.mem_filter] at hmem
    obtain ⟨hsub, hfeas⟩ := hmem
    rw [isFeasible_iff] at hfeas
    obtain ⟨hlen, hdis, hforced⟩ := hfeas
    have hsl : best.Sublist (availableRows team_df availability fatigue_levels
        (calculate_strategy_weight home_score away_score)) :=
      List.mem_sublists.mp hsub
    have hplist : (best.map Row.pid).Sublist
        ((availableDf team_df availability).map Player.player_id) := by
      rw [← availableRows_map_pid team_df availability fatigue_levels
        (calculate_strategy_weight home_score away_score)]
      exact hsl.map Row.pid
    rw [_optimize_with_gurobi, hpb]
    refine ⟨by simp [hlen], List.Nodup.sublist hplist hnodup,
      fun p hp => hplist.subset hp, hdis, fun p hp => hforced p hp,
      ⟨best, hmem0, rfl, rfl, rfl⟩, fun s hs => hmax s hs⟩

/-- C1 witness: on the five-player demo roster with everyone available and
fresh, the returned lineup is non-empty, has four players and respects the
cap. -/
theorem C1_lineup_feasible_and_optimal_witness :
    (optimize_lineup demoTeam [] [] 0 0 [] 8 4).lineup.length = 4 ∧
    (optimize_lineup demoTeam [] [] 0 0 [] 8 4).disability_sum ≤ 8 :=
  have h := C1_lineup_feasible_and_optimal demoTeam [] [] 0 0 [] 8 4
    (by norm_num [availableDf, getD_bool, demoTeam] <;> decide)
    (by norm_num [optimize_lineup, availableDf, getD_bool, availableRows, mkRow,
      tjOf, getD_rat, tOfLevel, scoreAdjusted, _adj, powW,
      calculate_strategy_weight, _optimize_with_gurobi, feasibleSubsets,
      isFeasible, pickBest, pickStep, adjSum, disSum, List.sublists, demoTeam,
      emptyResult] <;> decide)
  ⟨h.1, h.2.2.2.1⟩

/-- C2 counterexample: for a negative base score the adjusted score is NOT
non-increasing in t: with weight 1 and base score -2, moving from t = 1/2 to
the fresher t = 1 strictly increases the adjusted score (-4 to -2). -/
theorem C2_beta_neg_not_nonincreasing :
    (3/10 : ℚ) ≤ 1/2 ∧ (1/2 : ℚ) ≤ 1 ∧ (-2 : ℚ) < 0 ∧ (0 : ℚ) < 1 ∧
    ¬(scoreAdjusted 1 (-2) 1 ≤ scoreAdjusted 1 (-2) (1/2)) := by
  norm_num [scoreAdjusted, _adj, powW]

/-- C2 amended: for every positive integer strategy weight and every base
score — of either sign — the adjusted score is non-decreasing in the energy
fraction t on [0.3, 1.0].  For a negative base score the penalty grows (the
score falls) as the player tires, it does not grow with freshness. -/
theorem C2_adjusted_monotone (n : ℕ) (hn : 0 < n) (beta t₁ t₂ : ℚ)
    (h1 : 3/10 ≤ t₁) (h2 : t₁ ≤ t₂) (h3 : t₂ ≤ 1) :
    scoreAdjusted (n : ℚ) beta t₁ ≤ scoreAdjusted (n : ℚ) beta t₂ := by
  have hα : ¬((n : ℚ) ≤ 0) := by rw [Nat.cast_nonpos]; omega
  have ht₁1 : t₁ ≤ 1 := le_trans h2 h3
  have ht₂3 : 3/10 ≤ t₂ := le_trans h1 h2
  have h0t₁ : (0 : ℚ) < t₁ := lt_of_lt_of_le (by norm_num) h1
  simp only [scoreAdjusted, if_neg hα, _adj]
  rw [clamp_eq_self t₁ h1 ht₁1, clamp_eq_self t₂ ht₂3 h3]
  split_ifs with hbeta
  · rw [powW_natCast, powW_natCast]
    exact mul_le_mul_of_nonneg_left (pow_le_pow_left₀ (le_of_lt h0t₁) h2 n) hbeta
  · rw [max_eq_left (le_trans (by norm_num) h1),
      max_eq_left (le_trans (by norm_num) ht₂3), powW_natCast, powW_natCast]
    have hinv : 1 / t₂ ≤ 1 / t₁ := one_div_le_one_div_of_le h0t₁ h2
    have hp : (1 / t₂) ^ n ≤ (1 / t₁) ^ n :=
      pow_le_pow_left₀ (by positivity) hinv n
    exact mul_le_mul_of_nonpos_left hp (le_of_not_le hbeta)

/-- C2 witness: weight 1, base score -2, t from 1/2 up to 1. -/
theorem C2_adjusted_monotone_witness :
    scoreAdjusted ((1 : ℕ) : ℚ) (-2) (1/2) ≤ scoreAdjusted ((1 : ℕ) : ℚ) (-2) 1 :=
  C2_adjusted_monotone 1 (by norm_num) (-2) (1/2) 1 (by norm_num) (by norm_num)
    (by norm_num)

/-- C3: a negative stint duration is NOT a no-op.  Neither fatigue update
guards non-positive durations: with duration -10 minutes an on-court player
GAINS energy — `update_fatigue_multiplier` moves t from 0.5 to 0.7, and the
per-player update of `update_fatigue_after_stint` moves a level-50 on-court
player to level 550/7 ≈ 78.6. -/
theorem C3_negative_duration_changes_fatigue :
    update_fatigue_multiplier (1/2) (-10) true = 7/10 ∧ ¬((7/10 : ℚ) = 1/2) ∧
    update_fatigue_one (-10) true 50 = 550/7 ∧ ¬((550/7 : ℚ) = 50) := by
  norm_num [update_fatigue_multiplier, update_fatigue_one, tOfLevel, levelOfT]

/-- C4: for a clamped energy fraction t in [0.3, 1.0], the adjusted score is
the base score when the weight is non-positive; for a positive (integer)
weight it is base·t^weight for non-negative base scores and
base·(1/t)^weight for negative ones. -/
theorem C4_adjusted_score_formula (alpha beta t : ℚ) (n : ℕ)
    (ht1 : 3/10 ≤ t) (ht2 : t ≤ 1) :
    (alpha ≤ 0 → scoreAdjusted alpha beta t = beta) ∧
    (alpha = n → 0 < n → 0 ≤ beta → scoreAdjusted alpha beta t = beta * t ^ n) ∧
    (alpha = n → 0 < n → beta < 0 →
      scoreAdjusted alpha beta t = beta * (1 / t) ^ n) := by
  refine ⟨fun h => by simp [scoreAdjusted, h], ?_, ?_⟩
  · rintro rfl hn hbeta
    have hα : ¬((n : ℚ) ≤ 0) := by rw [Nat.cast_nonpos]; omega
    simp only [scoreAdjusted, if_neg hα, _adj]
    rw [clamp_eq_self t ht1 ht2, if_pos hbeta, powW_natCast]
  · rintro rfl hn hbeta
    have hα : ¬((n : ℚ) ≤ 0) := by rw [Nat.cast_nonpos]; omega
    simp only [scoreAdjusted, if_neg hα, _adj]
    rw [clamp_eq_self t ht1 ht2, if_neg (not_le.mpr hbeta),
      max_eq_left (le_trans (by norm_num) ht1), powW_natCast]

/-- C4 witness: the three formula branches at weight 0, weight 2 with base 3,
and weight 1 with base -2, all at t = 1/2. -/
theorem C4_adjusted_score_formula_witness :
    scoreAdjusted 0 5 (1/2) = 5 ∧
    scoreAdjusted ((2 : ℕ) : ℚ) 3 (1/2) = 3 * (1/2 : ℚ) ^ (2 : ℕ) ∧
    scoreAdjusted ((1 : ℕ) : ℚ) (-2) (1/2) = (-2) * (1 / (1/2 : ℚ)) ^ (1 : ℕ) :=
  have h0 := C4_adjusted_score_formula 0 5 (1/2) 2 (by norm_num) (by norm_num)
  have h2 := C4_adjusted_score_formula ((2 : ℕ) : ℚ) 3 (1/2) 2 (by norm_num)
    (by norm_num)
  have h1 := C4_adjusted_score_formula ((1 : ℕ) : ℚ) (-2) (1/2) 1 (by norm_num)
    (by norm_num)
  ⟨h0.1 (le_refl 0), h2.2.1 rfl (by norm_num) (by norm_num),
   h1.2.2 rfl (by norm_num) (by norm_num)⟩

/-- C5: with fewer available candidates than the lineup size, or with a
pre-selected id that is not among the available candidates, `optimize_lineup`
returns the canonical infeasible result for the whole request. -/
theorem C5_infeasible_inputs (team_df : List Player)
    (availability : List (String × Bool)) (fatigue_levels : List (String × ℚ))
    (home_score away_score : ℚ) (pre_selected : List String)
    (disability_cap : ℚ) (lineup_size : Nat) :
    ((availableDf team_df availability).length < lineup_size →
      optimize_lineup team_df availability fatigue_levels home_score away_score
        pre_selected disability_cap lineup_size = emptyResult) ∧
    ((∃ p ∈ pre_selected,
        p ∉ (availableDf team_df availability).map Player.player_id) →
      optimize_lineup team_df availability fatigue_levels home_score away_score
        pre_selected disability_cap lineup_size = emptyResult) := by
  constructor
  · intro h1
    simp only [optimize_lineup]
    rw [if_pos h1]
  · rintro ⟨p, hp, hnp⟩
    simp only [optimize_lineup]
    by_cases h1 : (availableDf team_df availability).length < lineup_size
    · rw [if_pos h1]
    · rw [if_neg h1]
      have h2 : (pre_selected.filter (fun q => decide
          (q ∈ (availableDf team_df availability).map Player.player_id))).length
          < pre_selected.length :=
        filter_length_lt_of_exists _ _ p hp (by simpa using hnp)
      rw [if_pos h2]

/-- C5 witness: a three-player roster yields the empty result with lineup
size 4, and an unknown pre-selected id "z" yields the empty result on the
five-player roster. -/
theorem C5_infeasible_inputs_witness :
    optimize_lineup smallTeam [] [] 0 0 [] 8 4 = emptyResult ∧
    optimize_lineup demoTeam [] [] 0 0 ["z"] 8 4 = emptyResult :=
  ⟨(C5_infeasible_inputs smallTeam [] [] 0 0 [] 8 4).1
      (by norm_num [availableDf, getD_bool, smallTeam]),
   (C5_infeasible_inputs demoTeam [] [] 0 0 ["z"] 8 4).2
      ⟨"z", by decide, by norm_num [availableDf, getD_bool, demoTeam]; decide⟩⟩

/-- C6: both fatigue updates implement the clamped linear rule — on court
t loses 0.02 per minute, on the bench t gains 0.01 per minute, clamped to
[0.3, 1.0] — the app-level per-player update converts the 0-100 level to t,
applies exactly the optimizer's rule, converts back and clamps the level to
[0, 100]; the resulting energy fraction always lies in [0.3, 1.0]. -/
theorem C6_stint_update_formula (t level stint_duration_minutes : ℚ)
    (on_court : Bool) :
    update_fatigue_multiplier t stint_duration_minutes on_court =
      max (3/10) (min 1 (if on_court then t - (2/100) * stint_duration_minutes
        else t + (1/100) * stint_duration_minutes)) ∧
    3/10 ≤ update_fatigue_multiplier t stint_duration_minutes on_court ∧
    update_fatigue_multiplier t stint_duration_minutes on_court ≤ 1 ∧
    update_fatigue_one stint_duration_minutes on_court level =
      max 0 (min 100 (levelOfT (update_fatigue_multiplier (tOfLevel level)
        stint_duration_minutes on_court))) ∧
    0 ≤ update_fatigue_one stint_duration_minutes on_court level ∧
    update_fatigue_one stint_duration_minutes on_court level ≤ 100 := by
  simp only [update_fatigue_multiplier, update_fatigue_one]
  refine ⟨trivial, le_max_left _ _, max_le (by norm_num) (min_le_left _ _),
    trivial, le_max_left _ _, max_le (by norm_num) (min_le_left _ _)⟩

/-- C7: the level-to-fraction conversion round-trips exactly over exact
arithmetic, maps the bounds exactly (level 0 to t = 0.3, level 100 to
t = 1.0), and keeps t within [0.3, 1.0] for levels within [0, 100]. -/
theorem C7_fatigue_round_trip (level : ℚ) (h0 : 0 ≤ level)
    (h100 : level ≤ 100) :
    levelOfT (tOfLevel level) = level ∧ tOfLevel 0 = 3/10 ∧ tOfLevel 100 = 1 ∧
    3/10 ≤ tOfLevel level ∧ tOfLevel level ≤ 1 := by
  unfold tOfLevel levelOfT
  refine ⟨by ring, by norm_num, by norm_num, by linarith, by linarith⟩

/-- C7 witness: level 50 round-trips and lands inside [0.3, 1.0]. -/
theorem C7_fatigue_round_trip_witness :
    levelOfT (tOfLevel 50) = 50 ∧ tOfLevel 0 = 3/10 ∧ tOfLevel 100 = 1 ∧
    (3/10 : ℚ) ≤ tOfLevel 50 ∧ tOfLevel 50 ≤ 1 :=
  C7_fatigue_round_trip 50 (by norm_num) (by norm_num)

/-- C8 counterexample: the code does not break ties itself — on the tied
roster, two different 4-subsets (a,b,c,d and a,b,c,e, both of objective 13)
are each a result a correct exact solver may return for the very same input,
and they name different lineups.  Which one the caller sees depends on the
external solver's internal choice. -/
theorem C8_tie_not_solver_independent :
    IsOptimalChoice (availableRows tieTeam [] []
      (calculate_strategy_weight 0 0)) [] 8 4 tieS1 ∧
    IsOptimalChoice (availableRows tieTeam [] []
      (calculate_strategy_weight 0 0)) [] 8 4 tieS2 ∧
    ¬(tieS1.map Row.pid = tieS2.map Row.pid) := by
  norm_num [IsOptimalChoice, availableRows, availableDf, getD_bool, mkRow, tjOf,
    getD_rat, tOfLevel, scoreAdjusted, _adj, powW, calculate_strategy_weight,
    feasibleSubsets, isFeasible, adjSum, disSum, List.sublists, tieTeam, tieS1,
    tieS2]
  decide

/-- C8 amended: the objective value is solver-independent — any two optimal
choices a correct solver may return for the same input have equal
adjusted-score sums (and the embedded selector, being a function, returns
identical results for identical inputs) — but the lineup itself is not
determined at ties. -/
theorem C8_objective_solver_independent (rows : List Row) (forced : List String)
    (cap : ℚ) (size : Nat) (s₁ s₂ : List Row)
    (h₁ : IsOptimalChoice rows forced cap size s₁)
    (h₂ : IsOptimalChoice rows forced cap size s₂) :
    adjSum s₁ = adjSum s₂ :=
  le_antisymm (h₂.2 s₁ h₁.1) (h₁.2 s₂ h₂.1)

/-- C8 witness: on a one-row input with lineup size 1 the unique optimal
choice agrees with itself. -/
theorem C8_objective_solver_independent_witness :
    adjSum [rowOne] = adjSum [rowOne] :=
  have hoc : IsOptimalChoice [rowOne] [] 8 1 [rowOne] := by
    norm_num [IsOptimalChoice, feasibleSubsets, isFeasible, adjSum, disSum,
      List.sublists, rowOne]
  C8_objective_solver_independent [rowOne] [] 8 1 [rowOne] [rowOne] hoc hoc

/-- C9: `optimize_lineup` overwrites the caller's `disability_cap` with 8.0
before solving, so two calls differing only in the cap argument return the
same result — the enforced cap is always 8.0. -/
theorem C9_disability_cap_ignored (team_df : List Player)
    (availability : List (String × Bool)) (fatigue_levels : List (String × ℚ))
    (home_score away_score : ℚ) (pre_selected : List String)
    (lineup_size : Nat) (cap₁ cap₂ : ℚ) :
    optimize_lineup team_df availability fatigue_levels home_score away_score
      pre_selected cap₁ lineup_size =
    optimize_lineup team_df availability fatigue_levels home_score away_score
      pre_selected cap₂ lineup_size := rfl

/-- The t_j lookup falls back to 1.0 for a player without a fatigue entry. -/
theorem tjOf_eq_one (fatigue_levels : List (String × ℚ)) (pid : String) :
    (∀ q ∈ fatigue_levels, ¬ q.1 = pid) → tjOf fatigue_levels pid = 1 := by
  induction fatigue_levels with
  | nil => intro _; rfl
  | cons q rest ih =>
    intro h
    have hq := h q (List.mem_cons_self q rest)
    have hrest : ∀ r ∈ rest, ¬ r.1 = pid :=
      fun r hr => h r (List.mem_cons_of_mem q hr)
    simp only [tjOf, List.map_cons, getD_rat, if_neg hq]
    exact ih hrest

/-- C10: an available player whose id has no entry in `fatigue_levels` gets
the energy fraction t = 1.0 (fully fresh) and their adjusted score is
computed at t = 1.0. -/
theorem C10_missing_fatigue_defaults_fresh (fatigue_levels : List (String × ℚ))
    (alpha : ℚ) (p : Player)
    (h : ∀ q ∈ fatigue_levels, ¬ q.1 = p.player_id) :
    (mkRow alpha fatigue_levels p).t_j = 1 ∧
    (mkRow alpha fatigue_levels p).score_adjusted =
      scoreAdjusted alpha p.value_score 1 := by
  have ht := tjOf_eq_one fatigue_levels p.player_id h
  exact ⟨by simp [mkRow, ht], by simp [mkRow, ht]⟩

/-- C10 witness: player "a" has no entry in a fatigue dict that only knows
"b", and is scored at t = 1. -/
theorem C10_missing_fatigue_defaults_fresh_witness :
    (mkRow 1 [("b", 40)] ⟨"a", 2, 3⟩).t_j = 1 ∧
    (mkRow 1 [("b", 40)] ⟨"a", 2, 3⟩).score_adjusted = scoreAdjusted 1 3 1 :=
  C10_missing_fatigue_defaults_fresh [("b", 40)] 1 ⟨"a", 2, 3⟩ (by decide)
